import Mathlib

/-!
Verification of the document-extraction pipeline in
`src/agents/document_processor.py` (class `FinancialDocumentProcessor` and
`DocumentEventHandler`).

Strings are embedded as `List Char`.  The external collaborators (the
language-model call, PDF text extraction, the filesystem clock) are passed
in as explicit parameters: the two model responses, the source document's
page list, and the `strftime("%Y%m%d_%H%M%S")` timestamp strings.  Python
exceptions are embedded as `Except` errors.
-/

namespace DocProc

/-- Python `re` `\d` on the ASCII fragment used by this repository. -/
def isDigit (c : Char) : Bool := decide (48 ≤ c.toNat) && decide (c.toNat ≤ 57)

/-- Python `re` `\w` (word character) on the ASCII fragment: letter, digit
or underscore.  Word characters are what the `\b` boundaries in the pattern
`\b\d+\b` test against. -/
def isWordChar (c : Char) : Bool :=
  isDigit c || (decide (97 ≤ c.toNat) && decide (c.toNat ≤ 122))
    || (decide (65 ≤ c.toNat) && decide (c.toNat ≤ 90)) || decide (c.toNat = 95)

/-- Scanner state for `re.findall(r'\b\d+\b', text)`:
`out b` means we are not inside a digit run and `b` records whether the
previous character was a word character (false at the start of the text);
`run valid ds` means we are inside a digit run whose characters so far are
`ds` (reversed), and `valid` records whether the boundary before the run
held (the character before the first digit was not a word character). -/
inductive ScanSt where
  | out (b : Bool)
  | run (valid : Bool) (ds : List Char)

/-- One left-to-right pass implementing `re.findall(r'\b\d+\b', text)`:
maximal digit runs are matches exactly when the characters on both sides
(if any) are not word characters. -/
def numScan : ScanSt → List Char → List (List Char)
  | ScanSt.out _, [] => []
  | ScanSt.run valid ds, [] => if valid then [ds.reverse] else []
  | ScanSt.out b, c :: rest =>
    if isDigit c then numScan (ScanSt.run (!b) [c]) rest
    else numScan (ScanSt.out (isWordChar c)) rest
  | ScanSt.run valid ds, c :: rest =>
    if isDigit c then numScan (ScanSt.run valid (c :: ds)) rest
    else if valid && !(isWordChar c) then
      ds.reverse :: numScan (ScanSt.out (isWordChar c)) rest
    else numScan (ScanSt.out (isWordChar c)) rest

/-- `re.findall(r'\b\d+\b', response.content)` (document_processor.py:84). -/
def pyFindallNums (s : List Char) : List (List Char) :=
  numScan (ScanSt.out false) s

/-- The boundary state after scanning `l` from state `out b`: whether the
last character seen is a word character. -/
def endWordState (b : Bool) (l : List Char) : Bool :=
  l.foldl (fun _ c => isWordChar c) b

/-- Python `int` on a token made of decimal digits. -/
def digitsToNat (l : List Char) : Nat :=
  l.foldl (fun a c => 10 * a + (c.toNat - 48)) 0

/-- The exceptions the pipeline raises, named after the spec's error
taxonomy: `classificationEmpty` embeds the `ValueError("No page numbers
found in GPT-4o response")` of `find_financial_pages`, and
`malformedExtraction` embeds the `ValueError("Could not parse JSON: ...")`
of `extract_from_financial_pdf`. -/
inductive PipeErr where
  | classificationEmpty
  | malformedExtraction
deriving DecidableEq

/-- STEP 1 (document_processor.py:54-95): the parsing tail of
`find_financial_pages`.  The language-model response text is the
parameter; the function collects every integer token of the response, in
order, and raises when there is none.  There is no deduplication and no
range filtering here. -/
def find_financial_pages (response : List Char) : Except PipeErr (List Nat) :=
  let numbers := pyFindallNums response
  let financial_pages := numbers.map digitsToNat
  if financial_pages.isEmpty then Except.error PipeErr.classificationEmpty
  else Except.ok financial_pages

/-- The output path `financial_pages / f"financial_statements_{timestamp}.pdf"`
built at document_processor.py:115-117. -/
def financialPdfPath (ts : List Char) : List Char :=
  "document_processing/financial_pages/financial_statements_".toList
    ++ ts ++ ".pdf".toList

/-- The output path `extracted / f"financial_data_{timestamp}.json"` built at
document_processor.py:168-169. -/
def extractedJsonPath (ts : List Char) : List Char :=
  "document_processing/extracted_data/financial_data_".toList
    ++ ts ++ ".json".toList

/-- STEP 2 (document_processor.py:97-125): `create_financial_pages_pdf`.
The source document is its list of pages `doc` (page `n` of the PDF is
`doc[n-1]`), `ts` is the `datetime.now().strftime(...)` string taken at
line 115.  For each requested page number the code computes
`idx = page_num - 1` and appends `reader.pages[idx]` only when
`0 <= idx < len(reader.pages)`, silently skipping the rest.  The
`output_filename` argument is unconditionally overwritten at line 116, so
it does not influence the result.  The function returns the output path
and the written document's pages; it never raises on an empty or
out-of-range selection. -/
def create_financial_pages_pdf {α : Type} (doc : List α) (pages : List Nat)
    ( output_filename : List Char) (ts : List Char) : List Char × List α :=
  let kept := pages.filterMap (fun page_num =>
    let idx : Int := Int.ofNat page_num - 1
    if 0 ≤ idx ∧ idx < (doc.length : Int) then doc.get? idx.toNat else none)
  let _ := output_filename
  (financialPdfPath ts, kept)

/-- A parsed JSON value, the shape of what Python's `json.loads` returns:
`obj` keeps the members in textual order. -/
inductive Json where
  | null : Json
  | bool : Bool → Json
  | num : Int → Json
  | str : List Char → Json
  | arr : List Json → Json
  | obj : List (List Char × Json) → Json

/-- JSON insignificant whitespace. -/
def jsonWs (c : Char) : Bool := c == ' ' || c == '\t' || c == '\n' || c == '\r'

def skipWs : List Char → List Char
  | [] => []
  | c :: r => if jsonWs c then skipWs r else c :: r

/-- Body of a JSON string after the opening quote; returns the decoded
characters and the remainder after the closing quote.  Covers the escape
sequences short of `\u`, which this repository's inputs do not use. -/
def parseStringBody : List Char → Option (List Char × List Char)
  | [] => none
  | c :: r =>
    if c == '"' then some ([], r)
    else if c == '\\' then
      match r with
      | [] => none
      | e :: r2 =>
        let dec : Option Char :=
          if e == '"' then some '"'
          else if e == '\\' then some '\\'
          else if e == '/' then some '/'
          else if e == 'n' then some '\n'
          else if e == 't' then some '\t'
          else if e == 'r' then some '\r'
          else if e == 'b' then some (Char.ofNat 8)
          else if e == 'f' then some (Char.ofNat 12)
          else none
        match dec with
        | none => none
        | some d => (parseStringBody r2).map (fun p => (d :: p.1, p.2))
    else (parseStringBody r).map (fun p => (c :: p.1, p.2))

/-- Whether a number token continues with a fraction or exponent; the model
covers the integer fragment of JSON numbers, which is all this
repository's verified inputs use. -/
def numTail : List Char → Bool
  | c :: _ => c == '.' || c == 'e' || c == 'E'
  | [] => false

/-- A JSON number (integer fragment). -/
def parseNum : List Char → Option (Json × List Char)
  | '-' :: r =>
    let ds := r.takeWhile isDigit
    let rest := r.dropWhile isDigit
    if ds.isEmpty || numTail rest then none
    else some (Json.num (-(digitsToNat ds : Int)), rest)
  | s =>
    let ds := s.takeWhile isDigit
    let rest := s.dropWhile isDigit
    if ds.isEmpty || numTail rest then none
    else some (Json.num (digitsToNat ds), rest)

/-- Mode of the recursive-descent JSON reader: a single value, the members
of an object after its `\x7b`, or the elements of an array after its `[`. -/
inductive PMode where
  | val
  | members
  | elems

/-- Fuel-indexed recursive-descent reader for JSON, modelling Python's
`json.loads` grammar on the fragment without floats and `\u` escapes.
`members` returns `Json.obj`, `elems` returns `Json.arr`. -/
def parseJ : Nat → PMode → List Char → Option (Json × List Char)
  | 0, _, _ => none
  | Nat.succ fuel, PMode.val, s =>
    (match skipWs s with
     | 'n' :: 'u' :: 'l' :: 'l' :: r => some (Json.null, r)
     | 't' :: 'r' :: 'u' :: 'e' :: r => some (Json.bool true, r)
     | 'f' :: 'a' :: 'l' :: 's' :: 'e' :: r => some (Json.bool false, r)
     | '"' :: r => (parseStringBody r).map (fun p => (Json.str p.1, p.2))
     | '{' :: r =>
       (match skipWs r with
        | '}' :: r2 => some (Json.obj [], r2)
        | r2 => parseJ fuel PMode.members r2)
     | '[' :: r =>
       (match skipWs r with
        | ']' :: r2 => some (Json.arr [], r2)
        | r2 => parseJ fuel PMode.elems r2)
     | s2 => parseNum s2)
  | Nat.succ fuel, PMode.members, s =>
    (match skipWs s with
     | '"' :: r =>
       (match parseStringBody r with
        | none => none
        | some (key, r2) =>
          (match skipWs r2 with
           | ':' :: r3 =>
             (match parseJ fuel PMode.val r3 with
              | none => none
              | some (v, r4) =>
                (match skipWs r4 with
                 | ',' :: r5 =>
                   (match parseJ fuel PMode.members r5 with
                    | some (Json.obj kvs, rest) =>
                      some (Json.obj ((key, v) :: kvs), rest)
                    | _ => none)
                 | '}' :: r5 => some (Json.obj [(key, v)], r5)
                 | _ => none))
           | _ => none))
     | _ => none)
  | Nat.succ fuel, PMode.elems, s =>
    (match parseJ fuel PMode.val s with
     | none => none
     | some (v, r) =>
       (match skipWs r with
        | ',' :: r2 =>
          (match parseJ fuel PMode.elems r2 with
           | some (Json.arr vs, rest) => some (Json.arr (v :: vs), rest)
           | _ => none)
        | ']' :: r2 => some (Json.arr [v], r2)
        | _ => none))

/-- `json.loads` (external library call at document_processor.py:165):
one JSON value, optionally surrounded by whitespace, nothing after it. -/
def jsonLoads (s : List Char) : Option Json :=
  match parseJ (2 * s.length + 2) PMode.val s with
  | some (v, rest) => if (skipWs rest).isEmpty then some v else none
  | none => none

/-- Python `str.strip()` whitespace (ASCII fragment). -/
def isPySpace (c : Char) : Bool :=
  c == ' ' || c == '\t' || c == '\n' || c == '\r' || c == '\x0b' || c == '\x0c'

/-- Python `str.strip()`. -/
def pyStrip (l : List Char) : List Char :=
  ((l.dropWhile isPySpace).reverse.dropWhile isPySpace).reverse

/-- Python `str.startswith` with a single-character argument. -/
def pyStartsWith (l : List Char) (c : Char) : Bool :=
  match l with
  | [] => false
  | x :: _ => x == c

/-- Python `str.find` with a single-character argument: index of the first
occurrence, `none` for `-1`. -/
def firstIdx (c : Char) : List Char → Option Nat
  | [] => none
  | x :: xs => if x = c then some 0 else (firstIdx c xs).map (fun i => i + 1)

/-- Python `str.rfind` with a single-character argument: index of the last
occurrence, `none` for `-1`. -/
def lastIdx (c : Char) : List Char → Option Nat
  | [] => none
  | x :: xs =>
    match lastIdx c xs with
    | some k => some (k + 1)
    | none => if x = c then some 0 else none

/-- The response-cleaning block of `extract_from_financial_pdf`
(document_processor.py:156-163), exactly as written: strip; if the result
does not start with a left brace, find the first left brace; when present,
drop up to it and then truncate just past the last right brace of the
already-dropped text (`rfind` returning -1 truncates to the empty string);
when absent, the stripped text is passed to the JSON reader unchanged. -/
def cleanResponse (response : List Char) : List Char :=
  let cleaned := pyStrip response
  if pyStartsWith cleaned '{' then cleaned
  else
    match firstIdx '{' cleaned with
    | none => cleaned
    | some start =>
      let cleaned2 := cleaned.drop start
      let stop :=
        match lastIdx '}' cleaned2 with
        | some j => j + 1
        | none => 0
      cleaned2.take stop

/-- Written from the spec's words, for comparison with `cleanResponse`:
"locate the first `\x7b` and the last `\x7d` in the text; if both exist,
slice the text to that span before parsing". -/
def specBraceSpan (t : List Char) : List Char :=
  match firstIdx '{' t, lastIdx '}' t with
  | some i, some j => (t.drop i).take (j + 1 - i)
  | _, _ => t

/-- STEP 3 (document_processor.py:131-188): the parsing tail of
`extract_from_financial_pdf`.  The model response is the parameter, `ts`
is the timestamp taken at line 168.  On parse success the record is
written to the extracted-data path and returned; `json.JSONDecodeError`
becomes the `ValueError` at line 184, embedded as `malformedExtraction`,
and nothing is written. -/
def extract_from_financial_pdf (ts : List Char) (response : List Char) :
    Except PipeErr (Json × List Char) :=
  match jsonLoads (cleanResponse response) with
  | some extracted_data => Except.ok (extracted_data, extractedJsonPath ts)
  | none => Except.error PipeErr.malformedExtraction

/-- `process_document` (document_processor.py:190-222): the three stages
in sequence; an exception in a stage aborts the rest.  The result pairs
the outcome with the list of artifact paths written before returning or
raising (the filtered-pages PDF from step 2, the extracted-data JSON from
step 3).  `ts1`/`ts2` are the timestamps taken inside steps 2 and 3;
`classResp`/`extractResp` are the two language-model responses. -/
def process_document {α : Type} (classResp extractResp : List Char)
    (doc : List α) (ts1 ts2 : List Char) :
    Except PipeErr Json × List (List Char) :=
  match find_financial_pages classResp with
  | Except.error e => (Except.error e, [])
  | Except.ok financial_pages =>
    let step2 := create_financial_pages_pdf doc financial_pages
      "financial_statements.pdf".toList ts1
    match extract_from_financial_pdf ts2 extractResp with
    | Except.error e => (Except.error e, [step2.1])
    | Except.ok (extracted_data, epath) =>
      (Except.ok extracted_data, [step2.1, epath])

/-- Where the inbound file sits, relative to the watcher's directories. -/
inductive Loc where
  | upload
  | processing
  | completed
  | failed
deriving DecidableEq

/-- `Path(src).rename(dst)`: succeeds only when the file is actually at
`src`; a rename whose source does not exist raises `FileNotFoundError`,
which `process_new_document`'s inner handler swallows, leaving the file
where it is. -/
def tryRename (cur src dst : Loc) : Loc := if cur = src then dst else cur

/-- Python `result["status"]` on a decoded JSON value: a member lookup on
a dict (last binding wins, as `json.loads` builds dicts), `none` embeds
the `KeyError` of a missing key and the `TypeError` of subscripting a
non-dict, both of which the handler's `except` catches. -/
def lookupLast (k : List Char) : List (List Char × Json) → Option Json
  | [] => none
  | (k0, v) :: rest =>
    match lookupLast k rest with
    | some v2 => some v2
    | none => if k0 = k then some v else none

def statusOf (record : Json) : Option Json :=
  match record with
  | Json.obj kvs => lookupLast "status".toList kvs
  | _ => none

/-- Python `result["status"] == "error"`: true only for the exact string;
comparing a non-string value with a string is `False`, not an error. -/
def pyEqStrError (v : Json) : Bool :=
  match v with
  | Json.str s => s == "error".toList
  | _ => false

/-- `DocumentEventHandler.process_new_document`
(document_processor.py:235-264), tracking only the inbound file's
location.  The file is first renamed into `processing`; after the
pipeline, the handler reads `result["status"]`, raising on a missing key,
a non-dict result, or the value `"error"`; only a present non-`"error"`
status moves the file to `completed`.  The `except` branch renames the
ORIGINAL `file_path` — where the file no longer is — into `failed`, so
that rename fails and the file stays in `processing`. -/
def process_new_document {α : Type} (classResp extractResp : List Char)
    (doc : List α) (ts1 ts2 : List Char) : Loc :=
  let fs := tryRename Loc.upload Loc.upload Loc.processing
  match (process_document classResp extractResp doc ts1 ts2).1 with
  | Except.error _ => tryRename fs Loc.upload Loc.failed
  | Except.ok record =>
    match statusOf record with
    | none => tryRename fs Loc.upload Loc.failed
    | some v =>
      if pyEqStrError v then tryRename fs Loc.upload Loc.failed
      else tryRename fs Loc.processing Loc.completed

/-! ### Lemmas about the integer-token scanner -/

theorem scan_out_append (l1 : List Char) (b : Bool) (l2 : List Char)
    (h : ∀ c ∈ l1, isDigit c = false) :
    numScan (ScanSt.out b) (l1 ++ l2)
      = numScan (ScanSt.out (endWordState b l1)) l2 := by
  induction l1 generalizing b with
  | nil => rfl
  | cons c cs ih =>
    have hc : isDigit c = false := h c (List.mem_cons_self c cs)
    have hcs : ∀ x ∈ cs, isDigit x = false :=
      fun x hx => h x (List.mem_cons_of_mem c hx)
    simp only [List.cons_append, numScan, hc, Bool.false_eq_true, if_false]
    exact ih (isWordChar c) hcs

theorem scan_out_nil (l : List Char) (b : Bool)
    (h : ∀ c ∈ l, isDigit c = false) : numScan (ScanSt.out b) l = [] := by
  have := scan_out_append l b [] h
  simpa using this

theorem scan_run_end (ds : List Char) (post : List Char)
    (h2 : ∀ c ∈ post, isDigit c = false)
    (h3 : Option.all (fun c => ! isWordChar c) post.head? = true) :
    numScan (ScanSt.run true ds) post = [ds.reverse] := by
  cases post with
  | nil => rfl
  | cons c rest =>
    have hc : isDigit c = false := h2 c (List.mem_cons_self c rest)
    have hw : isWordChar c = false := by
      simpa [Option.all] using h3
    have hrest : ∀ x ∈ rest, isDigit x = false :=
      fun x hx => h2 x (List.mem_cons_of_mem c hx)
    simp only [numScan, hc, hw, Bool.false_eq_true, if_false, Bool.not_false,
      Bool.and_true, if_true]
    rw [scan_out_nil rest false hrest]

/-- Scanning the literal phrase leaves the two finished tokens and a run
holding `12`, whatever follows. -/
theorem phrase_scan (b : Bool) (post : List Char) :
    numScan (ScanSt.out b) ("pages 3, 7 and 12".toList ++ post)
      = [['3'], ['7']] ++ numScan (ScanSt.run true ['2', '1']) post := rfl

/-! ### Lemmas about `str.find` / `str.rfind` / `str.strip` -/

theorem firstIdx_of_mem {c : Char} {l : List Char} (h : c ∈ l) :
    ∃ i, firstIdx c l = some i := by
  induction l with
  | nil => cases h
  | cons x xs ih =>
    by_cases hx : x = c
    · exact ⟨0, by simp [firstIdx, hx]⟩
    · rcases List.mem_cons.mp h with h1 | h2
      · exact absurd h1.symm hx
      · rcases ih h2 with ⟨i, hi⟩
        exact ⟨i + 1, by simp [firstIdx, hx, hi]⟩

theorem firstIdx_of_not_mem {c : Char} {l : List Char} (h : c ∉ l) :
    firstIdx c l = none := by
  induction l with
  | nil => rfl
  | cons x xs ih =>
    have hx : ¬ x = c := fun he => h (he ▸ List.mem_cons_self x xs)
    have hxs : c ∉ xs := fun hm => h (List.mem_cons_of_mem x hm)
    simp [firstIdx, hx, ih hxs]

theorem lastIdx_of_mem {c : Char} {l : List Char} (h : c ∈ l) :
    ∃ j, lastIdx c l = some j := by
  induction l with
  | nil => cases h
  | cons x xs ih =>
    cases hxs : lastIdx c xs with
    | some k => exact ⟨k + 1, by simp [lastIdx, hxs]⟩
    | none =>
      rcases List.mem_cons.mp h with h1 | h2
      · exact ⟨0, by simp [lastIdx, hxs, h1.symm]⟩
      · rcases ih h2 with ⟨j, hj⟩
        rw [hj] at hxs
        cases hxs

/-- `rfind` after `drop`: the last occurrence shifts by the dropped
length, disappearing when it was inside the dropped part. -/
theorem lastIdx_drop (c : Char) :
    ∀ (n : Nat) (l : List Char),
      lastIdx c (l.drop n)
        = match lastIdx c l with
          | none => none
          | some j => if n ≤ j then some (j - n) else none := by
  intro n
  induction n with
  | zero =>
    intro l
    cases h : lastIdx c l <;> simp [h]
  | succ n ih =>
    intro l
    cases l with
    | nil => simp [lastIdx]
    | cons x xs =>
      have hd : (x :: xs).drop (n + 1) = xs.drop n := rfl
      rw [hd, ih xs]
      cases hxs : lastIdx c xs with
      | some k =>
        have hl : lastIdx c (x :: xs) = some (k + 1) := by simp [lastIdx, hxs]
        rw [hl]
        by_cases hnk : n ≤ k
        · simp [hnk, Nat.succ_le_succ hnk, Nat.succ_sub_succ]
        · have : ¬ n + 1 ≤ k + 1 := fun hc2 => hnk (Nat.le_of_succ_le_succ hc2)
          simp [hnk, this]
      | none =>
        by_cases hx : x = c
        · have hl : lastIdx c (x :: xs) = some 0 := by simp [lastIdx, hxs, hx]
          rw [hl]
          simp
        · have hl : lastIdx c (x :: xs) = none := by simp [lastIdx, hxs, hx]
          rw [hl]

theorem mem_of_mem_dropWhile {c : Char} {p : Char → Bool} :
    ∀ {l : List Char}, c ∈ l.dropWhile p → c ∈ l := by
  intro l
  induction l with
  | nil => intro h; exact h
  | cons x xs ih =>
    intro h
    by_cases hx : p x = true
    · rw [List.dropWhile_cons_of_pos hx] at h
      exact List.mem_cons_of_mem x (ih h)
    · rw [List.dropWhile_cons_of_neg hx] at h
      exact h

theorem mem_of_mem_pyStrip {c : Char} {l : List Char} (h : c ∈ pyStrip l) :
    c ∈ l := by
  unfold pyStrip at h
  rw [List.mem_reverse] at h
  have h2 := mem_of_mem_dropWhile h
  rw [List.mem_reverse] at h2
  exact mem_of_mem_dropWhile h2

theorem startsWith_mem {l : List Char} {c : Char}
    (h : pyStartsWith l c = true) : c ∈ l := by
  cases l with
  | nil => cases h
  | cons x xs =>
    have : x = c := by simpa [pyStartsWith] using h
    exact this ▸ List.mem_cons_self x xs

/-! ### The repair step slices exactly the spec's span -/

theorem cleanResponse_eq_specBraceSpan (response : List Char)
    (h1 : pyStartsWith (pyStrip response) '{' = false)
    (h2 : '{' ∈ pyStrip response) (h3 : '}' ∈ pyStrip response) :
    cleanResponse response = specBraceSpan (pyStrip response) := by
  obtain ⟨i, hi⟩ := firstIdx_of_mem h2
  obtain ⟨j, hj⟩ := lastIdx_of_mem h3
  have hdrop0 := lastIdx_drop '}' i (pyStrip response)
  rw [hj] at hdrop0
  have hdrop : lastIdx '}' (List.drop i (pyStrip response))
      = if i ≤ j then some (j - i) else none := hdrop0
  by_cases hij : i ≤ j
  · rw [if_pos hij] at hdrop
    simp only [cleanResponse, specBraceSpan, h1, Bool.false_eq_true, if_false,
      hi, hj, hdrop]
    have he : j - i + 1 = j + 1 - i := by omega
    rw [he]
  · rw [if_neg hij] at hdrop
    simp only [cleanResponse, specBraceSpan, h1, Bool.false_eq_true, if_false,
      hi, hj, hdrop]
    have he : j + 1 - i = 0 := by omega
    rw [he]

/-! ### Helper for the page-extraction content -/

theorem create_kept_eq {α : Type} (doc : List α) (d : α) (pages : List Nat)
    (nm ts : List Char) (h2 : ∀ p ∈ pages, 1 ≤ p ∧ p ≤ doc.length) :
    (create_financial_pages_pdf doc pages nm ts).2
      = pages.map (fun p => doc.getD (p - 1) d) := by
  induction pages with
  | nil => rfl
  | cons p ps ih =>
    have hp := h2 p (List.mem_cons_self p ps)
    have hps : ∀ q ∈ ps, 1 ≤ q ∧ q ≤ doc.length :=
      fun q hq => h2 q (List.mem_cons_of_mem p hq)
    have htail := ih hps
    simp only [create_financial_pages_pdf, List.filterMap_cons] at htail ⊢
    obtain ⟨hp1, hp2⟩ := hp
    have hcast : Int.ofNat p = (p : Int) := rfl
    have hcond : 0 ≤ Int.ofNat p - 1 ∧ Int.ofNat p - 1 < (doc.length : Int) := by
      rw [hcast]; constructor <;> omega
    have htn : (Int.ofNat p - 1).toNat = p - 1 := by rw [hcast]; omega
    have hlt : p - 1 < doc.length := by omega
    rw [if_pos hcond, htn, List.get?_eq_getElem?, List.getElem?_eq_getElem hlt]
    simp only [List.map_cons, List.getD_eq_getElem doc d hlt]
    exact congrArg _ htail

/-!
## Claim theorems
-/

/-- C1: a structured-extraction response whose stripped text does not
start with a left brace but contains both braces is sliced from the first
left brace to the last right brace before parsing, and when that span is
valid JSON the parsed mapping is returned as the record.  The slicing claim
is the first conjunct (the code's cleaning equals the spec's span); the
parsing claim is the second. -/
theorem extract_structured_brace_slice (response ts : List Char) (v : Json)
    (h1 : pyStartsWith (pyStrip response) '{' = false)
    (h2 : '{' ∈ pyStrip response) (h3 : '}' ∈ pyStrip response) :
    cleanResponse response = specBraceSpan (pyStrip response) ∧
    (jsonLoads (specBraceSpan (pyStrip response)) = some v →
      extract_from_financial_pdf ts response
        = Except.ok (v, extractedJsonPath ts)) := by
  have hc := cleanResponse_eq_specBraceSpan response h1 h2 h3
  refine ⟨hc, fun hp => ?_⟩
  unfold extract_from_financial_pdf
  rw [hc, hp]

/-- Witness for C1 at the claim's own example: the prose-wrapped response
parses to the record with the single field `a = 1`. -/
theorem extract_structured_brace_slice_example :
    extract_from_financial_pdf "20250101_120000".toList
      "Here is the data:\n\x7b\"a\": 1\x7d\nHope this helps!".toList
      = Except.ok (Json.obj [("a".toList, Json.num 1)],
          extractedJsonPath "20250101_120000".toList) :=
  (extract_structured_brace_slice
    "Here is the data:\n\x7b\"a\": 1\x7d\nHope this helps!".toList
    "20250101_120000".toList (Json.obj [("a".toList, Json.num 1)])
    (by rfl) (by decide) (by decide)).2 (by rfl)

/-- C2 counterexample: the code does not deduplicate; the response
`"3 3 7"` yields `[3, 3, 7]`, which is not a duplicate-free list. -/
theorem identify_pages_keeps_duplicates_cex :
    find_financial_pages "3 3 7".toList = Except.ok [3, 3, 7]
      ∧ ¬ ([3, 3, 7] : List Nat).Nodup :=
  ⟨rfl, by decide⟩

/-- C2 amended: `find_financial_pages` returns every integer token in
order of appearance, duplicates retained and no range filtering; any
response made of the phrase `pages 3, 7 and 12` surrounded by digit-free
text (not continuing the final token with a word character) yields
exactly `[3, 7, 12]` in that order. -/
theorem identify_pages_tokens_in_order (pre post : List Char)
    (h1 : ∀ c ∈ pre, isDigit c = false)
    (h2 : ∀ c ∈ post, isDigit c = false)
    (h3 : Option.all (fun c => ! isWordChar c) post.head? = true) :
    find_financial_pages (pre ++ ("pages 3, 7 and 12".toList ++ post))
      = Except.ok [3, 7, 12] := by
  simp only [find_financial_pages, pyFindallNums]
  rw [scan_out_append pre false _ h1, phrase_scan, scan_run_end _ post h2 h3]
  rfl

/-- Witness for C2's amended claim on a full classifier sentence. -/
theorem identify_pages_tokens_in_order_example :
    find_financial_pages ("Financial statements appear on ".toList
      ++ ("pages 3, 7 and 12".toList ++ ".".toList)) = Except.ok [3, 7, 12] :=
  identify_pages_tokens_in_order "Financial statements appear on ".toList
    ".".toList (by decide) (by decide) (by decide)

/-- C3 counterexample: with `total_pages = 10`, the candidate `15` is NOT
discarded by the classification step, which returns `[3, 15, 7]`. -/
theorem identify_pages_no_range_filter_cex :
    find_financial_pages "3 15 7".toList = Except.ok [3, 15, 7]
      ∧ 15 ∈ ([3, 15, 7] : List Nat) ∧ ¬ (15 : Nat) ≤ 10 :=
  ⟨rfl, by decide, by decide⟩

/-- C3 amended: the classification step returns all candidates unfiltered;
the out-of-range discard happens silently inside the page-extraction step,
which keeps pages 3 and 7 of a 10-page document and, when every candidate
is out of range, writes an empty filtered document instead of raising. -/
theorem range_filter_happens_in_page_extraction :
    find_financial_pages "3 15 7".toList = Except.ok [3, 15, 7]
      ∧ (create_financial_pages_pdf (List.range 10) [3, 15, 7] []
          "ts".toList).2 = [2, 6]
      ∧ (create_financial_pages_pdf (List.range 10) [15, 20] []
          "ts".toList).2 = [] :=
  ⟨rfl, rfl, rfl⟩

/-- C4: a classifier response with no digit yields the classification
failure, the pipeline's result is that error, and no artifact of the
later stages is written. -/
theorem no_digits_classification_fails {α : Type}
    (classResp extractResp : List Char) (doc : List α) (ts1 ts2 : List Char)
    (h : ∀ c ∈ classResp, isDigit c = false) :
    process_document classResp extractResp doc ts1 ts2
      = (Except.error PipeErr.classificationEmpty, []) := by
  have hf : find_financial_pages classResp
      = Except.error PipeErr.classificationEmpty := by
    simp only [find_financial_pages, pyFindallNums]
    rw [scan_out_nil classResp false h]
    rfl
  simp only [process_document, hf]

/-- Witness for C4 on a digit-free refusal response. -/
theorem no_digits_classification_fails_example :
    process_document "No financial statement pages were found.".toList
      "\x7b\x7d".toList (List.range 10) "ts".toList "ts".toList
      = (Except.error PipeErr.classificationEmpty, []) :=
  no_digits_classification_fails _ _ _ _ _ (by decide)

/-- C5 counterexample: the response `"42"` contains no left brace, yet
extraction succeeds with the record `42` and persists an artifact, because
the code only slices when a brace exists and otherwise hands the stripped
text to `json.loads`, which accepts any JSON value, not just objects. -/
theorem no_brace_valid_json_cex :
    '{' ∉ "42".toList
      ∧ extract_from_financial_pdf "ts".toList "42".toList
          = Except.ok (Json.num 42, extractedJsonPath "ts".toList) :=
  ⟨by decide, rfl⟩

/-- C5 amended: a response with no left brace anywhere fails with the
malformed-extraction error (and persists nothing) exactly when its
stripped text is not itself valid JSON; a braceless response that is valid
JSON is parsed and returned. -/
theorem no_brace_unparseable_fails (response ts : List Char)
    (h1 : '{' ∉ response)
    (h2 : jsonLoads (pyStrip response) = none) :
    extract_from_financial_pdf ts response
      = Except.error PipeErr.malformedExtraction := by
  have hs : '{' ∉ pyStrip response := fun hm => h1 (mem_of_mem_pyStrip hm)
  have hstart : pyStartsWith (pyStrip response) '{' = false := by
    cases hsw : pyStartsWith (pyStrip response) '{'
    · rfl
    · exact absurd (startsWith_mem hsw) hs
  have hfi : firstIdx '{' (pyStrip response) = none := firstIdx_of_not_mem hs
  have hclean : cleanResponse response = pyStrip response := by
    simp only [cleanResponse, hstart, Bool.false_eq_true, if_false, hfi]
  unfold extract_from_financial_pdf
  rw [hclean, h2]

/-- Witness for C5's amended claim on a braceless prose response. -/
theorem no_brace_unparseable_fails_example :
    extract_from_financial_pdf "ts".toList
      "The document contains no tables.".toList
      = Except.error PipeErr.malformedExtraction :=
  no_brace_unparseable_fails "The document contains no tables.".toList
    "ts".toList (by decide) (by rfl)

/-- C6 counterexample: called on an empty selection, the page-extraction
step succeeds and writes an (empty) artifact at the timestamped path,
instead of failing with any empty-selection error. -/
theorem empty_selection_succeeds_cex :
    create_financial_pages_pdf (List.range 10) [] []
        "20250101_120000".toList
      = (financialPdfPath "20250101_120000".toList, []) := rfl

/-- C6 amended: for every source document, an empty selection makes
`create_financial_pages_pdf` succeed, writing an empty filtered document
at the timestamped path; no defensive empty-selection guard exists. -/
theorem empty_selection_writes_empty_pdf {α : Type} (doc : List α)
    (nm ts : List Char) :
    create_financial_pages_pdf doc [] nm ts = (financialPdfPath ts, []) := rfl

/-- C7: for a non-empty selection whose indices all lie within
`[1, total_pages]`, the filtered document is exactly the selected pages in
the selection's order. -/
theorem filtered_doc_matches_selection {α : Type} (doc : List α) (d : α)
    (pages : List Nat) (nm ts : List Char)
    (h1 : pages ≠ []) (h2 : ∀ p ∈ pages, 1 ≤ p ∧ p ≤ doc.length) :
    (create_financial_pages_pdf doc pages nm ts).2
      = pages.map (fun p => doc.getD (p - 1) d) :=
  create_kept_eq doc d pages nm ts h2

/-- Witness for C7: pages 4, 5, 6 of a ten-page document, in that order. -/
theorem filtered_doc_matches_selection_example :
    (create_financial_pages_pdf (List.range 10) [4, 5, 6] []
      "ts".toList).2 = [3, 4, 5] := by
  rw [filtered_doc_matches_selection (List.range 10) 0 [4, 5, 6] []
    "ts".toList (by decide) (by decide)]
  rfl

/-- C8: a run whose pipeline succeeds with the record `\x7b"a": 1\x7d`
leaves the inbound file in the `processing` directory, not `completed`:
the handler reads `result["status"]` from a record that has no such key,
the `KeyError` lands in the `except` branch, and the rename there uses the
original upload path, where the file no longer is. -/
theorem watcher_success_record_stuck_in_processing :
    process_new_document "3".toList "\x7b\"a\": 1\x7d".toList (List.range 5)
        "ts".toList "ts".toList = Loc.processing
      ∧ (process_document "3".toList "\x7b\"a\": 1\x7d".toList (List.range 5)
          "ts".toList "ts".toList).1
        = Except.ok (Json.obj [("a".toList, Json.num 1)])
      ∧ Loc.processing ≠ Loc.completed :=
  ⟨rfl, rfl, by decide⟩

/-- C9 counterexample: two different runs (different documents, responses
and page selections) whose timestamps fall in the same second return the
same non-empty artifact paths, so the second run overwrites the first. -/
theorem same_second_runs_share_paths_cex :
    (process_document "3".toList "\x7b\"a\": 1\x7d".toList (List.range 5)
        "20250101_120000".toList "20250101_120000".toList).2
      = (process_document "5".toList "\x7b\"b\": 2\x7d".toList (List.range 9)
          "20250101_120000".toList "20250101_120000".toList).2
      ∧ (process_document "3".toList "\x7b\"a\": 1\x7d".toList (List.range 5)
          "20250101_120000".toList "20250101_120000".toList).2 ≠ [] :=
  ⟨rfl, by decide⟩

/-- C9 amended: artifact paths are distinct exactly as far as the
second-resolution timestamps are: runs with different timestamp strings
get different filtered-document and extracted-data paths. -/
theorem distinct_timestamps_distinct_paths (ts1 ts2 : List Char)
    (h : ts1 ≠ ts2) :
    financialPdfPath ts1 ≠ financialPdfPath ts2
      ∧ extractedJsonPath ts1 ≠ extractedJsonPath ts2 := by
  constructor <;> intro he <;> apply h
  · unfold financialPdfPath at he
    rw [List.append_assoc, List.append_assoc] at he
    exact List.append_cancel_right (List.append_cancel_left he)
  · unfold extractedJsonPath at he
    rw [List.append_assoc, List.append_assoc] at he
    exact List.append_cancel_right (List.append_cancel_left he)

/-- Witness for C9's amended claim: one second apart, distinct paths. -/
theorem distinct_timestamps_distinct_paths_example :
    financialPdfPath "20250101_120000".toList
        ≠ financialPdfPath "20250101_120001".toList
      ∧ extractedJsonPath "20250101_120000".toList
        ≠ extractedJsonPath "20250101_120001".toList :=
  distinct_timestamps_distinct_paths _ _ (by decide)

/-- C10: the output path of `create_financial_pages_pdf` does not depend
on the `output_filename` argument, which line 116 overwrites with the
timestamp-derived name. -/
theorem output_filename_ignored {α : Type} (doc : List α) (pages : List Nat)
    (n1 n2 ts : List Char) :
    (create_financial_pages_pdf doc pages n1 ts).1
      = (create_financial_pages_pdf doc pages n2 ts).1 := rfl

end DocProc

